import Mathlib

/-!
Verification of the gNMI command-line client core
(`cmd/gnmi/main.go` of aristanetworks/goarista, vendored).

The Go source is shallowly embedded: machine integers are `Nat` with
explicit `% 2 ^ 64` where uint64 wraparound matters, external
collaborators (path splitting, element parsing, file reading, the RPC
client) are function parameters, and process-exiting error paths become
explicit result constructors.
-/

set_option maxRecDepth 4096

/-- The uint64 wraparound modulus. -/
def u64Mod : Nat := 2 ^ 64

/-- Wire-level Decimal64: a scaled integer (`digits`, uint64 on the wire)
plus a precision (number of fractional digits). -/
structure Decimal64 where
  digits : Nat
  precision : Nat
deriving DecidableEq, Repr

/-- The divisor loop of `strDecimal64`:
`div := 10; it := precision - 1; for it > 0 { div *= 10; it-- }`,
with every multiplication wrapping at 2^64 as Go uint64 arithmetic does. -/
def divLoop : Nat → Nat → Nat
  | 0, div => div
  | it + 1, div => divLoop it (div * 10 % u64Mod)

/-- Integer and fractional part computed by `strDecimal64`: when
`Precision > 0`, `i = Digits / div` and `frac = Digits % div` for the
loop-computed divisor; otherwise `i = Digits` and `frac` keeps its zero
initialisation. -/
def strDecimal64core (d : Decimal64) : Nat × Nat :=
  if d.precision > 0 then
    ((d.digits / divLoop (d.precision - 1) 10), (d.digits % divLoop (d.precision - 1) 10))
  else
    (d.digits, 0)

/-- `strDecimal64` renders the two parts as `fmt.Sprintf("%d.%d", i, frac)`. -/
def strDecimal64 (d : Decimal64) : String :=
  toString (strDecimal64core d).1 ++ "." ++ toString (strDecimal64core d).2

/-- The `operation` struct of the source: an operation type keyword
(`"update"`, `"replace"` or `"delete"`), a path already split by the
external `gnmi.SplitPath` collaborator, and a raw value token
(zero value `""` when the operation carries no value). -/
structure Operation where
  opType : String
  path : List String
  val : String
deriving DecidableEq, Repr

/-- Outcome of the argument-parsing loop of `main`: either one of the
`exitWithError` usage failures, the bare-usage exit for an empty
operation list, a terminal Get/Subscribe intent carrying the remaining
raw tokens (handed to `gnmi.SplitPaths`, one path per token), or the
queued Set operations. -/
inductive ParseResult where
  | usageError (msg : String)
  | usageNoOps
  | getIntent (pathTokens : List String)
  | subscribeIntent (pathTokens : List String)
  | setIntent (ops : List Operation)
deriving DecidableEq, Repr

/-- The token loop of `main`, parameterised by the external `SplitPath`
collaborator `sp`. Faithful to the source: `capabilities`/`get`/
`subscribe` first fail when `setOps` is non-empty; `capabilities`
otherwise fails \x22not supported\x22; `get`/`subscribe` otherwise return
immediately with every remaining token; a mutation keyword consumes the
next token as its path (failing \x22missing path\x22 when the keyword is the
last token) and, except for `delete`, the token after that as its value
(failing \x22missing JSON\x22 when absent); any other token fails as an
unknown operation; an exhausted token list yields the Set intent, or the
bare usage exit when nothing was queued. -/
def parseArgs (sp : String → List String) (args : List String) (setOps : List Operation) :
    ParseResult :=
  match args with
  | [] => if setOps.length = 0 then .usageNoOps else .setIntent setOps
  | arg :: rest =>
    if arg = "capabilities" then
      if setOps.length ≠ 0 then
        .usageError "error: \x27capabilities\x27 not allowed after \x27merge|replace|delete\x27"
      else
        .usageError "error: \x27capabilities\x27 not supported"
    else if arg = "get" then
      if setOps.length ≠ 0 then
        .usageError "error: \x27get\x27 not allowed after \x27merge|replace|delete\x27"
      else
        .getIntent rest
    else if arg = "subscribe" then
      if setOps.length ≠ 0 then
        .usageError "error: \x27subscribe\x27 not allowed after \x27merge|replace|delete\x27"
      else
        .subscribeIntent rest
    else if arg = "update" ∨ arg = "replace" ∨ arg = "delete" then
      match rest with
      | [] => .usageError "error: missing path"
      | p :: rest2 =>
        if arg ≠ "delete" then
          match rest2 with
          | [] => .usageError "error: missing JSON"
          | v :: rest3 => parseArgs sp rest3 (setOps ++ [⟨arg, sp p, v⟩])
        else
          parseArgs sp rest2 (setOps ++ [⟨arg, sp p, ""⟩])
    else
      .usageError ("error: unknown operation \x22" ++ arg ++ "\x22")

example : parseArgs (fun s => [s]) ["get", "a", "b"] [] = .getIntent ["a", "b"] := by decide
example : parseArgs (fun s => [s]) ["delete", "get"] []
    = .setIntent [⟨"delete", ["get"], ""⟩] := by decide
example : parseArgs (fun s => [s]) ["update", "p"] [] = .usageError "error: missing JSON" := by
  decide
example : parseArgs (fun s => [s]) ["capabilities"] []
    = .usageError "error: \x27capabilities\x27 not supported" := by decide
example : parseArgs (fun s => [s]) ["update", "p", "v", "subscribe", "x"] []
    = .usageError "error: \x27subscribe\x27 not allowed after \x27merge|replace|delete\x27" := by
  decide
example : parseArgs (fun s => [s]) [] [] = .usageNoOps := by decide
example : strDecimal64 ⟨105, 3⟩ = "0.105" := by decide
example : strDecimal64 ⟨1234, 2⟩ = "12.34" := by decide
example : strDecimal64 ⟨7, 0⟩ = "7.0" := by decide

/-- The populated case of the `isTypedValue_Value` oneof, as dispatched by
`strVal`. `other tag` stands for any variant the switch does not handle
(its Go type tag, as printed by `%T`, is carried along); byte-string
payloads are kept as `String`. -/
inductive TypedValVariant where
  | stringVal (s : String)
  | jsonIetfVal (b : String)
  | intVal (i : Int)
  | uintVal (n : Nat)
  | boolVal (b : Bool)
  | bytesVal (b : String)
  | decimalVal (d : Decimal64)
  | other (tag : String)
deriving DecidableEq, Repr

/-- The fields of `pb.Update` that `strVal` reads: the deprecated
`u.Value` raw-bytes field (`none` models a nil pointer) and
`u.Val.GetValue()` (`none` models a nil `Val` or an unset oneof). -/
structure Update where
  value : Option String
  val : Option TypedValVariant
deriving DecidableEq, Repr

/-- `strVal`: legacy raw bytes win when present; otherwise the switch over
the oneof, with the `%v` renderings of the scalar cases and the
`"[oops - %T]"` default arm (`%T` of a nil interface prints `<nil>`). -/
def strVal (u : Update) : String :=
  match u.value with
  | some legacy => legacy
  | none =>
    match u.val with
    | some (.stringVal s) => s
    | some (.jsonIetfVal b) => b
    | some (.intVal i) => toString i
    | some (.uintVal n) => toString n
    | some (.boolVal b) => toString b
    | some (.bytesVal b) => b
    | some (.decimalVal d) => strDecimal64 d
    | some (.other tag) => "[oops - " ++ tag ++ "]"
    | none => "[oops - <nil>]"

/-- `extractJSON`, parameterised by the external file-reading collaborator
`readFile` (`some contents` when the token names a readable file): file
contents when readable, otherwise the token text itself. -/
def extractJSON (readFile : String → Option String) (val : String) : String :=
  match readFile val with
  | some contents => contents
  | none => val

/-- A structured path element as produced by the external
`gnmi.ParseGNMIElements` collaborator: a name plus key/value pairs. -/
structure PathElem where
  name : String
  key : List (String × String)
deriving DecidableEq, Repr

/-- A `pb.Path` as built by `set`: the legacy flat element list and the
structured element list, populated together. -/
structure PathMsg where
  element : List String
  elem : List PathElem
deriving DecidableEq, Repr

/-- A `pb.Update` as built by the `update` helper: a path and a
`TypedValue_JsonIetfVal` payload (kept as the payload string). -/
structure UpdateMsg where
  path : PathMsg
  jsonIetfVal : String
deriving DecidableEq, Repr

/-- A `pb.SetRequest`: the delete, update and replace lists. -/
structure SetRequest where
  delete : List PathMsg
  update : List UpdateMsg
  replace : List UpdateMsg
deriving DecidableEq, Repr

/-- The `resp.Message` error/status of a `pb.SetResponse` (`grpc` code
plus message text); `codes.OK` is code 0. -/
structure StatusMsg where
  code : Nat
  message : String
deriving DecidableEq, Repr

/-- A `pb.SetResponse` as inspected by `set`: the optional `Message`
field (`none` models a nil pointer). -/
structure SetResponse where
  message : Option StatusMsg
deriving DecidableEq, Repr

/-- The request-building loop of `set`, parameterised by the external
`ParseGNMIElements` collaborator `pe` and file reader `rf`: per
operation, element parsing failures are returned at once; otherwise the
dual-encoded path is appended to the list selected by the operation
type (the Go switch has no default arm, so any other type is skipped). -/
def buildSetRequest (pe : List String → Except String (List PathElem))
    (rf : String → Option String) : List Operation → SetRequest → Except String SetRequest
  | [], req => .ok req
  | op :: rest, req =>
    match pe op.path with
    | .error e => .error e
    | .ok elm =>
      buildSetRequest pe rf rest
        (if op.opType = "delete" then
          { req with delete := req.delete ++ [⟨op.path, elm⟩] }
        else if op.opType = "update" then
          { req with update := req.update ++ [⟨⟨op.path, elm⟩, extractJSON rf op.val⟩] }
        else if op.opType = "replace" then
          { req with replace := req.replace ++ [⟨⟨op.path, elm⟩, extractJSON rf op.val⟩] }
        else req)

/-- The response inspection of `set`: a populated `Message` with a
non-`OK` code becomes an error carrying the server-supplied message
text; otherwise silent success. -/
def checkSetResponse (resp : SetResponse) : Except String Unit :=
  match resp.message with
  | some m => if m.code ≠ 0 then .error m.message else .ok ()
  | none => .ok ()

/-- The `set` executor: build the request (propagating the first element
parsing failure), issue the one RPC call through the injected `client`,
propagate a transport failure, else inspect the response status. -/
def setExec (pe : List String → Except String (List PathElem))
    (rf : String → Option String)
    (client : SetRequest → Except String SetResponse)
    (ops : List Operation) : Except String Unit :=
  match buildSetRequest pe rf ops ⟨[], [], []⟩ with
  | .error e => .error e
  | .ok req =>
    match client req with
    | .error e => .error e
    | .ok resp => checkSetResponse resp

/-- First element-parsing failure over an operation list, in order. -/
def firstParseError (pe : List String → Except String (List PathElem)) :
    List Operation → Option String
  | [] => none
  | op :: rest =>
    match pe op.path with
    | .error e => some e
    | .ok _ => firstParseError pe rest

/-- One `SubscribeResponse` as switched on by the receive loop:
a server `Error` response, a `SyncResponse`, an `Update` notification
(carrying its updates), or any response variant the switch ignores. -/
inductive SubResp where
  | errorResp (msg : String)
  | syncResponse (b : Bool)
  | updateResp (us : List Update)
  | otherResp
deriving DecidableEq, Repr

/-- The outcome of one `stream.Recv()` call: clean end-of-stream
(`io.EOF`), another transport error, or a received response. -/
inductive RecvResult where
  | eof
  | recvError (msg : String)
  | resp (r : SubResp)
deriving DecidableEq, Repr

/-- The receive loop of `subscribe` over a trace of `Recv` outcomes:
`io.EOF` returns success, any other receive error is returned, a server
`Error` response becomes an error with the server text, a
`SyncResponse{false}` becomes the error \x22initial sync failed\x22, and
`SyncResponse{true}`, updates and unrecognised responses continue the
loop. `none` means the trace ran out with the loop still blocked in
`Recv`. -/
def subLoop : List RecvResult → Option (Except String Unit)
  | [] => none
  | .eof :: _ => some (.ok ())
  | .recvError m :: _ => some (.error m)
  | .resp (.errorResp m) :: _ => some (.error m)
  | .resp (.syncResponse b) :: rest =>
    if b then subLoop rest else some (.error "initial sync failed")
  | .resp (.updateResp _) :: rest => subLoop rest
  | .resp .otherResp :: rest => subLoop rest

/-- Modelled from the spec (§4.3 transition list), for comparison with
`subLoop`: whether a receive outcome keeps the loop running. -/
def contEvent : RecvResult → Bool
  | .resp (.syncResponse b) => b
  | .resp (.updateResp _) => true
  | .resp .otherResp => true
  | _ => false

/-- Modelled from the spec (§4.3 transition list), for comparison with
`subLoop`: the terminal outcome the spec assigns to the first
non-continuing receive event (the continuing events are never consulted). -/
def specTermOutcome : RecvResult → Except String Unit
  | .eof => .ok ()
  | .recvError m => .error m
  | .resp (.errorResp m) => .error m
  | .resp (.syncResponse _) => .error "initial sync failed"
  | .resp (.updateResp _) => .ok ()
  | .resp .otherResp => .ok ()

/-- A complete mutation command as typed on the command line: the
keyword together with its path token and (except for delete) its value
token. -/
inductive MutTok where
  | upd (p v : String)
  | rep (p v : String)
  | del (p : String)
deriving DecidableEq, Repr

/-- The raw tokens a mutation command contributes to the argument list. -/
def MutTok.tokens : MutTok → List String
  | .upd p v => ["update", p, v]
  | .rep p v => ["replace", p, v]
  | .del p => ["delete", p]

/-- Token sequence of a list of mutation commands. -/
def serializeMuts (ms : List MutTok) : List String :=
  (ms.map MutTok.tokens).flatten

/-- The `operation` the parser queues for one mutation command. -/
def mutToOp (sp : String → List String) : MutTok → Operation
  | .upd p v => ⟨"update", sp p, v⟩
  | .rep p v => ⟨"replace", sp p, v⟩
  | .del p => ⟨"delete", sp p, ""⟩

theorem parseArgs_nil (sp : String → List String) (ops : List Operation) :
    parseArgs sp [] ops = if ops.length = 0 then .usageNoOps else .setIntent ops := rfl

theorem parseArgs_update_step (sp : String → List String) (p v : String)
    (rest : List String) (ops : List Operation) :
    parseArgs sp ("update" :: p :: v :: rest) ops
      = parseArgs sp rest (ops ++ [⟨"update", sp p, v⟩]) := by
  simp [parseArgs]

theorem parseArgs_replace_step (sp : String → List String) (p v : String)
    (rest : List String) (ops : List Operation) :
    parseArgs sp ("replace" :: p :: v :: rest) ops
      = parseArgs sp rest (ops ++ [⟨"replace", sp p, v⟩]) := by
  simp [parseArgs]

theorem parseArgs_delete_step (sp : String → List String) (p : String)
    (rest : List String) (ops : List Operation) :
    parseArgs sp ("delete" :: p :: rest) ops
      = parseArgs sp rest (ops ++ [⟨"delete", sp p, ""⟩]) := by
  rw [parseArgs.eq_def]
  simp

theorem serializeMuts_cons (m : MutTok) (ms : List MutTok) :
    serializeMuts (m :: ms) = m.tokens ++ serializeMuts ms := rfl

/-- Consuming a serialized prefix of complete mutation commands just
queues the corresponding operations. -/
theorem parseArgs_muts_consume (sp : String → List String) (ms : List MutTok)
    (tail : List String) (ops : List Operation) :
    parseArgs sp (serializeMuts ms ++ tail) ops
      = parseArgs sp tail (ops ++ ms.map (mutToOp sp)) := by
  induction ms generalizing ops with
  | nil => simp [serializeMuts]
  | cons m ms ih =>
    rw [serializeMuts_cons, List.append_assoc]
    cases m with
    | upd p v =>
      simp only [MutTok.tokens, List.cons_append, List.nil_append]
      rw [parseArgs_update_step, ih]
      simp [mutToOp, List.append_assoc]
    | rep p v =>
      simp only [MutTok.tokens, List.cons_append, List.nil_append]
      rw [parseArgs_replace_step, ih]
      simp [mutToOp, List.append_assoc]
    | del p =>
      simp only [MutTok.tokens, List.cons_append, List.nil_append]
      rw [parseArgs_delete_step, ih]
      simp [mutToOp, List.append_assoc]

example : subLoop [.resp (.syncResponse false)] = some (.error "initial sync failed") := rfl
example : subLoop [.resp (.syncResponse true), .eof] = some (.ok ()) := rfl
example :
    setExec (fun _ => .error "bad") (fun _ => none) (fun _ => .ok ⟨none⟩)
      [⟨"delete", ["x"], ""⟩] = .error "bad" := rfl

/-- The wrapping divisor loop computes `div * 10 ^ it` modulo 2^64. -/
theorem divLoop_eq (it div : Nat) (h : div < u64Mod) :
    divLoop it div = div * 10 ^ it % u64Mod := by
  induction it generalizing div with
  | zero => simp [divLoop, Nat.mod_eq_of_lt h]
  | succ n ih =>
    show divLoop n (div * 10 % u64Mod) = _
    rw [ih (div * 10 % u64Mod) (Nat.mod_lt _ (by norm_num [u64Mod]))]
    rw [Nat.mod_mul_mod]
    congr 1
    ring

/-- C1 (corrected): when `precision ≤ 19` the divisor `10 ^ precision`
fits in a uint64, so the integer and fractional parts produced by the
Decimal64 Converter reconstruct `digits` as
`i * 10 ^ precision + frac = digits`; when `precision = 0` the integer
part is `digits` and the fractional part is `0`; and `strDecimal64`
renders exactly these two parts around a decimal point. -/
theorem decimal64_reconstruct_bounded_precision (d : Decimal64) (hp : d.precision ≤ 19) :
    (strDecimal64core d).1 * 10 ^ d.precision + (strDecimal64core d).2 = d.digits
      ∧ (d.precision = 0 → strDecimal64core d = (d.digits, 0))
      ∧ strDecimal64 d
          = toString (strDecimal64core d).1 ++ "." ++ toString (strDecimal64core d).2 := by
  refine ⟨?_, fun h0 => by simp [strDecimal64core, h0], rfl⟩
  rcases Nat.eq_zero_or_pos d.precision with h0 | hpos
  · simp [strDecimal64core, h0]
  · have hdiv : divLoop (d.precision - 1) 10 = 10 ^ d.precision := by
      rw [divLoop_eq _ _ (by norm_num [u64Mod])]
      have h1 : 10 * 10 ^ (d.precision - 1) = 10 ^ d.precision := by
        conv_rhs => rw [← Nat.succ_pred_eq_of_pos hpos]
        rw [pow_succ, Nat.pred_eq_sub_one]
        ring
      rw [h1]
      apply Nat.mod_eq_of_lt
      calc 10 ^ d.precision ≤ 10 ^ 19 := Nat.pow_le_pow_right (by norm_num) hp
        _ < u64Mod := by norm_num [u64Mod]
    simp only [strDecimal64core, if_pos hpos]
    rw [hdiv, Nat.mul_comm]
    exact Nat.div_add_mod d.digits (10 ^ d.precision)

/-- C1 witness: at `digits = 105`, `precision = 3` the hypothesis holds
and the parts `(0, 105)` reconstruct `0 * 1000 + 105 = 105`. -/
theorem decimal64_reconstruct_bounded_precision_witness :
    (3 : Nat) ≤ 19
      ∧ (strDecimal64core ⟨105, 3⟩).1 * 10 ^ (3 : Nat) + (strDecimal64core ⟨105, 3⟩).2 = 105 := by
  refine ⟨by norm_num, ?_⟩
  have h := decimal64_reconstruct_bounded_precision ⟨105, 3⟩ (by norm_num)
  exact h.1

/-- C1 counterexample: at `precision = 20` the divisor loop wraps
(`10 ^ 20 % 2 ^ 64 = 7766279631452241920`), so for
`digits = 7766279631452241920` the converter yields parts `(1, 0)`,
and `1 * 10 ^ 20 + 0` does not recover `digits`. -/
theorem decimal64_reconstruct_overflow_cex :
    strDecimal64core ⟨7766279631452241920, 20⟩ = (1, 0)
      ∧ 1 * 10 ^ 20 + 0 ≠ 7766279631452241920 := by
  constructor
  · decide
  · norm_num

/-- C2 (corrected): when `get` or `subscribe` is the first token (the
only way it can be examined with no mutation queued), parsing stops at
once and every remaining token — whatever it is — becomes a path token
of the produced intent; the intent therefore has one or more paths
exactly when at least one token follows the keyword. -/
theorem get_subscribe_first_token_terminal (sp : String → List String) (rest : List String) :
    parseArgs sp ("get" :: rest) [] = .getIntent rest
      ∧ parseArgs sp ("subscribe" :: rest) [] = .subscribeIntent rest := by
  constructor
  · rw [parseArgs.eq_def]
    simp
  · rw [parseArgs.eq_def]
    simp

/-- C2 counterexample: with `get` as the sole token the parser still
produces a Get intent, but it has zero paths, not one-or-more. -/
theorem get_zero_paths_cex :
    parseArgs (fun s => [s]) ["get"] [] = ParseResult.getIntent []
      ∧ List.length ([] : List String) = 0 := by
  decide

/-- C4 (corrected): a `get`, `subscribe` or `capabilities` token that the
parser examines in keyword position after at least one complete mutation
command has been queued fails with the corresponding
\x22not allowed after\x22 UsageError. -/
theorem mutation_then_keyword_usage_error (sp : String → List String) (m : MutTok)
    (ms : List MutTok) (rest : List String) :
    parseArgs sp (serializeMuts (m :: ms) ++ "get" :: rest) []
        = .usageError "error: \x27get\x27 not allowed after \x27merge|replace|delete\x27"
      ∧ parseArgs sp (serializeMuts (m :: ms) ++ "subscribe" :: rest) []
        = .usageError "error: \x27subscribe\x27 not allowed after \x27merge|replace|delete\x27"
      ∧ parseArgs sp (serializeMuts (m :: ms) ++ "capabilities" :: rest) []
        = .usageError "error: \x27capabilities\x27 not allowed after \x27merge|replace|delete\x27" := by
  refine ⟨?_, ?_, ?_⟩ <;>
    · rw [parseArgs_muts_consume, parseArgs.eq_def]
      simp

/-- C4 counterexample: the sequence `delete get` contains the mutation
keyword `delete` followed later by `get`, yet parsing succeeds — the
`get` token is consumed as the path argument of `delete` and a Set
intent is produced, with no UsageError. -/
theorem mutation_then_get_parses_cex :
    parseArgs (fun s => [s]) ["delete", "get"] []
      = ParseResult.setIntent [⟨"delete", ["get"], ""⟩] := by
  decide

/-- C5 (corrected): when `capabilities` is the first token (the only way
it can be examined with no mutation queued and no earlier `get` or
`subscribe` having consumed it as a path), parsing fails with the
UsageError \x22not supported\x22 whatever follows, so no executor and
hence no RPC call is ever reached. -/
theorem capabilities_first_token_not_supported (sp : String → List String)
    (rest : List String) :
    parseArgs sp ("capabilities" :: rest) []
      = .usageError "error: \x27capabilities\x27 not supported" := by
  rw [parseArgs.eq_def]
  simp

/-- C5 counterexample: in `get capabilities` the `capabilities` token has
no mutation keyword before it, yet parsing does not fail — it becomes a
path of the Get intent. -/
theorem capabilities_after_get_parses_cex :
    parseArgs (fun s => [s]) ["get", "capabilities"] []
      = ParseResult.getIntent ["capabilities"] := by
  decide

/-- C6 (corrected): for a mutation keyword examined in keyword position
(after any, possibly empty, serialized prefix of complete mutation
commands): `update`/`replace`/`delete` as the last token fail with
\x22missing path\x22; `update`/`replace` with a path but nothing after it
fail with \x22missing JSON\x22; `delete` with just a path succeeds with no
value token required, queueing the operation with the empty value. -/
theorem mutation_missing_tokens_usage_error (sp : String → List String)
    (ms : List MutTok) (p : String) :
    parseArgs sp (serializeMuts ms ++ ["update"]) [] = .usageError "error: missing path"
      ∧ parseArgs sp (serializeMuts ms ++ ["replace"]) [] = .usageError "error: missing path"
      ∧ parseArgs sp (serializeMuts ms ++ ["delete"]) [] = .usageError "error: missing path"
      ∧ parseArgs sp (serializeMuts ms ++ ["update", p]) [] = .usageError "error: missing JSON"
      ∧ parseArgs sp (serializeMuts ms ++ ["replace", p]) [] = .usageError "error: missing JSON"
      ∧ parseArgs sp (serializeMuts ms ++ ["delete", p]) []
        = .setIntent (ms.map (mutToOp sp) ++ [⟨"delete", sp p, ""⟩]) := by
  refine ⟨?_, ?_, ?_, ?_, ?_, ?_⟩ <;>
    · rw [parseArgs_muts_consume, parseArgs.eq_def]
      simp [parseArgs_nil, parseArgs_delete_step]

/-- C6 counterexample: in `delete update` the `update` token has no
following path token, yet parsing succeeds without any UsageError —
`update` is consumed as the path argument of `delete`. -/
theorem mutation_keyword_as_path_cex :
    parseArgs (fun s => [s]) ["delete", "update"] []
      = ParseResult.setIntent [⟨"delete", ["update"], ""⟩] := by
  decide

/-- C3: `strVal` is a total function into strings — no error outcome
exists — and it decodes every update as the spec says: the deprecated
raw-bytes field wins regardless of the modern variant; otherwise
String/JSONEncoded/Bytes are returned as text, SignedInt/UnsignedInt/
Bool via default formatting, Decimal via the Decimal64 Converter; an
unrecognised variant yields the placeholder embedding its type tag and
an unset one the placeholder with tag `<nil>`. -/
theorem strVal_total_dispatch :
    (∀ legacy v, strVal ⟨some legacy, v⟩ = legacy)
      ∧ (∀ s, strVal ⟨none, some (.stringVal s)⟩ = s)
      ∧ (∀ b, strVal ⟨none, some (.jsonIetfVal b)⟩ = b)
      ∧ (∀ i, strVal ⟨none, some (.intVal i)⟩ = toString i)
      ∧ (∀ n, strVal ⟨none, some (.uintVal n)⟩ = toString n)
      ∧ (∀ b, strVal ⟨none, some (.boolVal b)⟩ = toString b)
      ∧ (∀ b, strVal ⟨none, some (.bytesVal b)⟩ = b)
      ∧ (∀ d, strVal ⟨none, some (.decimalVal d)⟩ = strDecimal64 d)
      ∧ (∀ tag, strVal ⟨none, some (.other tag)⟩ = "[oops - " ++ tag ++ "]")
      ∧ strVal ⟨none, none⟩ = "[oops - <nil>]" :=
  ⟨fun _ _ => rfl, fun _ => rfl, fun _ => rfl, fun _ => rfl, fun _ => rfl, fun _ => rfl,
    fun _ => rfl, fun _ => rfl, fun _ => rfl, rfl⟩

/-- C7: the subscribe receive loop skips exactly the continuing events
(`SyncResponse{true}`, updates, unrecognised responses) and decides at
the first terminal one, with the outcome the spec lists: success exactly
on clean end-of-stream, failure with the verbatim server message on an
Error response, \x22initial sync failed\x22 on `SyncResponse{false}`, and
the transport error text on any other receive error; an exhausted trace
(`none`) means the loop is still waiting. -/
theorem subscribe_loop_terminal_characterisation (evts : List RecvResult) :
    subLoop evts = ((evts.dropWhile contEvent).head?).map specTermOutcome := by
  induction evts with
  | nil => rfl
  | cons e rest ih =>
    cases e with
    | eof => simp [subLoop, contEvent, List.dropWhile_cons, specTermOutcome]
    | recvError m => simp [subLoop, contEvent, List.dropWhile_cons, specTermOutcome]
    | resp r =>
      cases r with
      | errorResp m => simp [subLoop, contEvent, List.dropWhile_cons, specTermOutcome]
      | syncResponse b =>
        cases b with
        | false => simp [subLoop, contEvent, List.dropWhile_cons, specTermOutcome]
        | true => simpa [subLoop, contEvent, List.dropWhile_cons] using ih
      | updateResp us => simpa [subLoop, contEvent, List.dropWhile_cons] using ih
      | otherResp => simpa [subLoop, contEvent, List.dropWhile_cons] using ih

/-- C8: when the Set RPC call itself succeeds, the executor returns
exactly the response inspection: a populated status with non-OK code
becomes an error carrying the server-supplied message text, an OK code
(or an absent status) is silent success. -/
theorem set_status_translation (pe : List String → Except String (List PathElem))
    (rf : String → Option String) (client : SetRequest → Except String SetResponse)
    (ops : List Operation) (req : SetRequest) (resp : SetResponse)
    (hreq : buildSetRequest pe rf ops ⟨[], [], []⟩ = .ok req)
    (hcall : client req = .ok resp) :
    setExec pe rf client ops = checkSetResponse resp
      ∧ (∀ m, resp.message = some m → m.code ≠ 0 → checkSetResponse resp = .error m.message)
      ∧ (∀ m, resp.message = some m → m.code = 0 → checkSetResponse resp = .ok ())
      ∧ (resp.message = none → checkSetResponse resp = .ok ()) := by
  refine ⟨?_, ?_, ?_, ?_⟩
  · simp [setExec, hreq, hcall]
  · intro m hm hc
    simp [checkSetResponse, hm, hc]
  · intro m hm hc
    simp [checkSetResponse, hm, hc]
  · intro hm
    simp [checkSetResponse, hm]

/-- C8 witness: one delete operation, a client answering status code 3
with message \x22boom\x22 — the executor surfaces `boom` as the error. -/
theorem set_status_translation_witness :
    setExec (fun _ => Except.ok ([] : List PathElem)) (fun _ => none)
        (fun _ => Except.ok ⟨some ⟨3, "boom"⟩⟩) [⟨"delete", ["a"], ""⟩]
      = Except.error "boom" := by
  have h := set_status_translation (fun _ => Except.ok ([] : List PathElem)) (fun _ => none)
    (fun _ => Except.ok ⟨some ⟨3, "boom"⟩⟩) [⟨"delete", ["a"], ""⟩]
    ⟨[⟨["a"], []⟩], [], []⟩ ⟨some ⟨3, "boom"⟩⟩ rfl rfl
  rw [h.1]
  exact h.2.1 ⟨3, "boom"⟩ rfl (by norm_num)

/-- C9: `extractJSON` is total (it returns a payload for every value
token, never an error): the file contents whenever the external reader
can read the token as a file, and otherwise the token text itself. -/
theorem extractJSON_total_fallback (rf : String → Option String) (val : String) :
    (∀ contents, rf val = some contents → extractJSON rf val = contents)
      ∧ (rf val = none → extractJSON rf val = val) := by
  constructor
  · intro contents h
    simp [extractJSON, h]
  · intro h
    simp [extractJSON, h]

/-- C9 witness: a readable token yields the file contents, an unreadable
one its own text. -/
theorem extractJSON_total_fallback_witness :
    extractJSON (fun _ => some "data") "tok" = "data"
      ∧ extractJSON (fun _ => none) "tok" = "tok" :=
  ⟨(extractJSON_total_fallback (fun _ => some "data") "tok").1 "data" rfl,
    (extractJSON_total_fallback (fun _ => none) "tok").2 rfl⟩

/-- Request building fails with the first element-parsing error. -/
theorem buildSetRequest_error_of_first (pe : List String → Except String (List PathElem))
    (rf : String → Option String) (ops : List Operation) (e0 : String)
    (h : firstParseError pe ops = some e0) :
    ∀ req, buildSetRequest pe rf ops req = .error e0 := by
  induction ops with
  | nil => simp [firstParseError] at h
  | cons op rest ih =>
    intro req
    rw [buildSetRequest]
    rw [firstParseError] at h
    cases hpe : pe op.path with
    | error e =>
      rw [hpe] at h
      simp at h
      simp [h]
    | ok elm =>
      rw [hpe] at h
      simp only at h
      exact ih h _

/-- An operation whose path fails to parse forces a first failure. -/
theorem firstParseError_isSome (pe : List String → Except String (List PathElem))
    (ops : List Operation)
    (h : ∃ op ∈ ops, ∃ e, pe op.path = .error e) :
    ∃ e0, firstParseError pe ops = some e0 := by
  induction ops with
  | nil => simp at h
  | cons op rest ih =>
    rw [firstParseError]
    cases hpe : pe op.path with
    | error e => exact ⟨e, rfl⟩
    | ok elm =>
      rcases h with ⟨op1, hmem, e1, he1⟩
      rcases List.mem_cons.mp hmem with heq | hmem1
      · rw [heq] at he1
        rw [he1] at hpe
        cases hpe
      · exact ih ⟨op1, hmem1, e1, he1⟩

/-- C10: if structured-path construction fails for any operation of the
list, the Set Executor returns the error of the first failing operation,
and the result is the same for every injected client — the Set request
is never sent. -/
theorem set_parse_failure_no_rpc (pe : List String → Except String (List PathElem))
    (rf : String → Option String) (ops : List Operation)
    (h : ∃ op ∈ ops, ∃ e, pe op.path = .error e) :
    ∃ e0, firstParseError pe ops = some e0
      ∧ ∀ client, setExec pe rf client ops = .error e0 := by
  obtain ⟨e0, he0⟩ := firstParseError_isSome pe ops h
  refine ⟨e0, he0, fun client => ?_⟩
  simp [setExec, buildSetRequest_error_of_first pe rf ops e0 he0]

/-- C10 witness: with an element parser rejecting every path, the
executor reports that error for every client, here the one answering OK. -/
theorem set_parse_failure_no_rpc_witness :
    ∃ e0, firstParseError (fun _ => Except.error "bad elements") [⟨"delete", ["x"], ""⟩]
        = some e0
      ∧ ∀ client, setExec (fun _ => Except.error "bad elements") (fun _ => none) client
        [⟨"delete", ["x"], ""⟩] = .error e0 :=
  set_parse_failure_no_rpc (fun _ => Except.error "bad elements") (fun _ => none)
    [⟨"delete", ["x"], ""⟩]
    ⟨⟨"delete", ["x"], ""⟩, List.mem_singleton.mpr rfl, "bad elements", rfl⟩
